import Mathlib

/-!
Verification of the credential subsystem of CDP-Quip-Runbooker
(`src/core/secure_token_manager.py`, class `SecureTokenManager`).

The Python module is shallowly embedded below.  Pure string processing
(token extraction, shell-config rewriting, base64 framing) is translated
directly; the environment the code interacts with (filesystem, network,
interactive user) is made explicit as state (`St`) and oracle parameters
(`Env`, per-attempt API outcomes).  Bytes are `Nat` values below 256;
Python strings are `List Char` (single-byte characters, which covers the
ASCII tokens this subsystem manages).

External library primitives that are not part of the repository are
modelled at the level of their documented contract:
* `base64.urlsafe_b64encode/b64decode` are implemented concretely at the
  sextet level (the urlsafe alphabet is a fixed bijection between the 64
  sextet values and characters, so this level of abstraction is exact);
* `cryptography.fernet.Fernet` is modelled as deterministic authenticated
  encryption: decryption with the encrypting key recovers the plaintext,
  decryption with any other key fails (`Fernet.decrypt` raises
  `InvalidToken`, which `_decrypt_token` catches and converts to `None`);
* the PBKDF2 key-derivation function is modelled as an injective encoding
  of the identifier string (ideal-KDF contract: deterministic, distinct
  identifiers yield distinct keys).
-/

namespace Runbooker

/-! ## Base64 (urlsafe), sextet level

Models Python `base64.urlsafe_b64encode` / `urlsafe_b64decode` applied to
byte strings.  A value `64` stands for the padding character. -/

def b64encode : List Nat → List Nat
  | [] => []
  | [a] => [a / 4, a % 4 * 16, 64, 64]
  | [a, b] => [a / 4, a % 4 * 16 + b / 16, b % 16 * 4, 64]
  | a :: b :: c :: rest =>
      a / 4 :: (a % 4 * 16 + b / 16) :: (b % 16 * 4 + c / 64) :: c % 64 :: b64encode rest

def b64decode : List Nat → Option (List Nat)
  | [] => some []
  | [_] => none
  | [_, _] => none
  | [_, _, _] => none
  | w :: x :: y :: z :: rest =>
      if y = 64 then
        if z = 64 ∧ rest = [] then some [w * 4 + x / 16] else none
      else if z = 64 then
        if rest = [] then some [w * 4 + x / 16, x % 16 * 16 + y / 4] else none
      else
        match b64decode rest with
        | some bs => some ((w * 4 + x / 16) :: (x % 16 * 16 + y / 4) :: (y % 4 * 64 + z) :: bs)
        | none => none

theorem b64decode_b64encode (bs : List Nat) (h : ∀ b ∈ bs, b < 256) :
    b64decode (b64encode bs) = some bs := by
  induction bs using b64encode.induct with
  | case1 => rfl
  | case2 a =>
      have ha : a < 256 := h a (by simp)
      simp only [b64encode, b64decode, and_self, if_pos rfl, if_true, Option.some.injEq,
        List.cons.injEq, and_true]
      omega
  | case3 a b =>
      have ha : a < 256 := h a (by simp)
      have hb : b < 256 := h b (by simp)
      have hy : ¬ (b % 16 * 4 = 64) := by omega
      simp only [b64encode, b64decode, if_neg hy, if_pos rfl, if_true,
        Option.some.injEq, List.cons.injEq, and_true]
      omega
  | case4 a b c rest ih =>
      have ha : a < 256 := h a (by simp)
      have hb : b < 256 := h b (by simp)
      have hc : c < 256 := h c (by simp)
      have hrest : ∀ x ∈ rest, x < 256 := fun x hx => h x (by simp [hx])
      have hy : ¬ (b % 16 * 4 + c / 64 = 64) := by omega
      have hz : ¬ (c % 64 = 64) := by omega
      simp only [b64encode, b64decode, if_neg hy, if_neg hz, ih hrest,
        Option.some.injEq, List.cons.injEq, and_true]
      refine ⟨by omega, by omega, by omega⟩

/-! ## Key derivation and token encryption

`SecureTokenManager._generate_encryption_key` builds the identifier string
`f"{machine_id}:{user_id}:{home_path}:cdp-runbooker-v1"` and derives a key
from it (PBKDF2-HMAC-SHA256 when `cryptography` is available, a SHA-256
digest otherwise).  The derivation is deterministic; keys are modelled as
`Nat` and the KDF as an injective encoding of the identifier characters
(ideal-KDF contract of the library primitives). -/

structure IdTuple where
  machineId : List Char
  userId : List Char
  homePath : List Char
deriving DecidableEq

/-- The identifier string of `_generate_encryption_key` (line 247 of the
source): machine id, user name and home path joined with a colon, followed
by the fixed application salt `cdp-runbooker-v1`. -/
def identifierString (t : IdTuple) : List Char :=
  t.machineId ++ ":".toList ++ t.userId ++ ":".toList ++ t.homePath ++
    ":cdp-runbooker-v1".toList

/-- Ideal-KDF model of the PBKDF2/SHA-256 derivation applied to the
identifier string: a deterministic injective encoding into `Nat`. -/
def kdfModel (s : List Char) : Nat :=
  s.foldl (fun acc c => acc * 1114112 + c.toNat + 1) 0

/-- `_generate_encryption_key`: derive the deterministic machine/user-bound
key from the identifier tuple. -/
def generate_encryption_key (t : IdTuple) : Nat :=
  kdfModel (identifierString t)

/-- The value stored in the `encrypted_token` field of the config file.
In strong-cipher mode it is the urlsafe-base64 framing of a Fernet token
(modelled by its contract: the ciphertext determines the encrypting key and
the plaintext bytes, and decryption checks the key).  In fallback mode it
is the plain urlsafe-base64 encoding of the token bytes (sextet list). -/
inductive Ciphertext
  | fernet (key : Nat) (payload : List Nat)
  | plainB64 (sextets : List Nat)
deriving DecidableEq

/-- `token.encode()` for the single-byte characters this subsystem
manages. -/
def encodeBytes (t : List Char) : List Nat := t.map Char.toNat

/-- `bytes.decode()`, inverse of `encodeBytes`. -/
def decodeBytes (bs : List Nat) : List Char := bs.map Char.ofNat

theorem decodeBytes_encodeBytes (t : List Char) : decodeBytes (encodeBytes t) = t := by
  simp only [decodeBytes, encodeBytes, List.map_map]
  calc List.map (Char.ofNat ∘ Char.toNat) t = List.map id t := by
        refine List.map_congr_left ?_
        intro c _
        simp [Char.ofNat_toNat]
    _ = t := List.map_id t

/-- `SecureTokenManager._encrypt_token` (lines 268-278): with the
cryptography library present, Fernet-encrypt under the derived key and
base64-frame the result; otherwise fall back to plain base64 encoding of
the token (the key is not used at all in that branch). -/
def encrypt_token (cryptoAvailable : Bool) (key : Nat) (token : List Char) : Ciphertext :=
  if cryptoAvailable then .fernet key (encodeBytes token)
  else .plainB64 (b64encode (encodeBytes token))

/-- `SecureTokenManager._decrypt_token` (lines 280-295): with the
cryptography library present, unframe and Fernet-decrypt; any failure
(wrong key, tampered or non-Fernet data) raises inside the `try` block and
is converted to `None`.  In fallback mode, base64-decode; a Fernet blob
does not decode to the token there (its bytes are not the token's UTF-8),
which the model reflects by returning `none`. -/
def decrypt_token (cryptoAvailable : Bool) (key : Nat) (c : Ciphertext) :
    Option (List Char) :=
  if cryptoAvailable then
    match c with
    | .fernet k p => if k = key then some (decodeBytes p) else none
    | .plainB64 _ => none
  else
    match c with
    | .plainB64 s => (b64decode s).map decodeBytes
    | .fernet _ _ => none

/-! ## Shell-config line processing

Models `str.strip`, `str.split("=", 1)`, `_extract_token_from_line`,
`_detect_legacy_tokens` and `_cleanup_legacy_tokens`. -/

/-- Python `str.isspace` characters stripped by `str.strip()`. -/
def isPySpace (c : Char) : Bool :=
  c.toNat = 32 ∨ c.toNat = 9 ∨ c.toNat = 10 ∨ c.toNat = 13 ∨ c.toNat = 11 ∨ c.toNat = 12

/-- Python `str.strip()`: drop leading and trailing whitespace. -/
def pyStrip (l : List Char) : List Char :=
  ((l.dropWhile isPySpace).reverse.dropWhile isPySpace).reverse

/-- `"=" in line` together with `line.split("=", 1)`: `none` when the line
has no `=`, otherwise the text before and after the first `=`. -/
def splitFirstEq : List Char → Option (List Char × List Char)
  | [] => none
  | c :: rest =>
      if c = '=' then some ([], rest)
      else (splitFirstEq rest).map (fun p => (c :: p.1, p.2))

def squoteChar : Char := Char.ofNat 39

def dquoteChar : Char := Char.ofNat 34

/-- `SecureTokenManager._extract_token_from_line` (lines 405-429): split at
the first `=`, strip the value, remove one layer of matching single or
double quotes, and accept the result only when it is non-empty and strictly
longer than 30 characters. -/
def extract_token_from_line (line : List Char) : Option (List Char) :=
  match splitFirstEq line with
  | none => none
  | some (_, tokenPart0) =>
      let tp := pyStrip tokenPart0
      let token :=
        if tp.head? = some dquoteChar ∧ tp.getLast? = some dquoteChar then
          (tp.drop 1).dropLast
        else if tp.head? = some squoteChar ∧ tp.getLast? = some squoteChar then
          (tp.drop 1).dropLast
        else tp
      if token ≠ [] ∧ token.length > 30 then some token else none

/-- The sentinel comment line written by older versions of the tool. -/
def sentinelLine : List Char := "# Added by CDP Runbooker".toList

/-- The start of the legacy export line. -/
def exportStart : List Char := "export QUIP_API_TOKEN=".toList

/-- The scanning loop of `_detect_legacy_tokens` (lines 358-368) on the
lines of one shell configuration file: find a stripped line equal to the
sentinel whose next line starts with the export statement and yields a
token; stop at the first success, otherwise keep scanning from the next
line. -/
def detectScan : List (List Char) → Option (List Char)
  | [] => none
  | [_] => none
  | l :: l2 :: rest =>
      if pyStrip l = sentinelLine then
        if exportStart.isPrefixOf (pyStrip l2) then
          match extract_token_from_line (pyStrip l2) with
          | some t => some t
          | none => detectScan (l2 :: rest)
        else detectScan (l2 :: rest)
      else detectScan (l2 :: rest)

/-- `SecureTokenManager._detect_legacy_tokens` (lines 339-375) over the
shell configuration files that exist, given as `(path, lines)` pairs: at
most one `(path, token)` entry per file. -/
def detect_legacy_tokens (files : List (String × List (List Char))) :
    List (String × List Char) :=
  files.filterMap (fun f => (detectScan f.2).map (fun t => (f.1, t)))

/-- The rewrite loop of `_cleanup_legacy_tokens` (lines 513-525): every
line whose stripped form equals the sentinel is dropped, together with the
following line when that line starts with the export statement; all other
lines are kept.  Scanning resumes after the dropped lines, so every
occurrence is removed, not only the first. -/
def cleanupLines : List (List Char) → List (List Char)
  | [] => []
  | [l] => if pyStrip l = sentinelLine then [] else [l]
  | l :: l2 :: rest2 =>
      if pyStrip l = sentinelLine then
        if exportStart.isPrefixOf (pyStrip l2) then cleanupLines rest2
        else cleanupLines (l2 :: rest2)
      else l :: cleanupLines (l2 :: rest2)

/-! ## Remote validation (`_validate_token`, lines 603-774)

The network is an oracle `responses : Nat → ApiOutcome` giving the outcome
of the API call made on each (0-based) attempt.  The model returns the
validation result together with the number of attempts performed and the
list of back-off sleeps (in seconds) executed between attempts. -/

/-- Outcome of one `get_authenticated_user` call: either a response object
(`hasId` records whether it is truthy and carries an `id` field) or an
exception whose lower-cased message is `msg`. -/
inductive ApiOutcome
  | response (hasId : Bool) (name : List Char)
  | exn (msg : List Char)
deriving DecidableEq

/-- Substring test on character lists (Python `keyword in error_str`). -/
def containsSub (hay needle : List Char) : Bool :=
  match hay with
  | [] => needle.isEmpty
  | _ :: rest => needle.isPrefixOf hay || containsSub rest needle

def transientKeywords : List (List Char) :=
  ["timeout", "connection", "network", "temporary", "service unavailable",
    "502", "503", "504"].map String.toList

def authKeywords : List (List Char) :=
  ["unauthorized", "401", "forbidden", "403", "invalid", "expired"].map String.toList

/-- The transient-error classification of lines 737: any transient keyword
occurs in the lower-cased exception message. -/
def isTransientMsg (msg : List Char) : Bool :=
  transientKeywords.any (fun k => containsSub msg k)

/-- The authentication-error classification of line 754. -/
def isAuthMsg (msg : List Char) : Bool :=
  authKeywords.any (fun k => containsSub msg k)

/-- The `for attempt in range(max_retries)` loop of `_validate_token`
(lines 640-774).  `attempt` is the 0-based index of the current attempt and
`remaining` the number of loop iterations left (`maxRetries - attempt`).
Returns (result, number of attempts performed, back-off sleeps). -/
def validateLoop (responses : Nat → ApiOutcome) (maxRetries : Nat) :
    Nat → Nat → Option (List Char) × Nat × List Nat
  | attempt, 0 => (none, attempt, [])
  | attempt, remaining + 1 =>
      match responses attempt with
      | .response true name => (some name, attempt + 1, [])
      | .response false _ => (none, attempt + 1, [])
      | .exn msg =>
          if isTransientMsg msg then
            if attempt < maxRetries - 1 then
              let r := validateLoop responses maxRetries (attempt + 1) remaining
              (r.1, r.2.1, (attempt + 1) * 2 :: r.2.2)
            else (none, attempt + 1, [])
          else if isAuthMsg msg then (none, attempt + 1, [])
          else (none, attempt + 1, [])

/-- `SecureTokenManager._validate_token`: tokens shorter than 30
characters are rejected locally with no attempt; otherwise run the retry
loop. -/
def validate_token (token : List Char) (maxRetries : Nat)
    (responses : Nat → ApiOutcome) : Option (List Char) × Nat × List Nat :=
  if token.length < 30 then (none, 0, [])
  else validateLoop responses maxRetries 0 maxRetries

/-! ## Storage and token-management flow

State visible to `SecureTokenManager`: the config file and the shell
configuration files (path and lines of each file that exists).  The
environment bundles the deterministic oracles the flow consults: cipher
availability, the derived key, the remote validation outcome per token
(`apiUser`, the net effect of a `_validate_token` call), whether writing
the config file succeeds, the clock, and the interactive answers. -/

/-- The persisted `config.json`: absent, unparseable, or a record with the
fields `_load_secure_token` reads (`version`, `encrypted_token`, plus the
`user_name` and `last_used` metadata). -/
inductive JsonFile
  | absent
  | malformed
  | record (version : Option String) (encryptedToken : Option Ciphertext)
      (userName : List Char) (lastUsed : Nat)
deriving DecidableEq

structure St where
  configFile : JsonFile
  shellFiles : List (String × List (List Char))
deriving DecidableEq

structure Env where
  cryptoAvailable : Bool
  key : Nat
  apiUser : List Char → Option (List Char)
  writeOk : Bool
  now : Nat
  migrateChoice : Bool
  setupChoice : Bool
  setupInputs : List (List Char)

/-- The schema version constant `CONFIG_VERSION`. -/
def CONFIG_VERSION : String := "1.0"

/-- Python truthiness of an optional string result. -/
def pyTruthy : Option (List Char) → Bool
  | some (_ :: _) => true
  | _ => false

/-- Net result of a `_validate_token(token)` call in the flow: the local
length guard plus the remote outcome oracle. -/
def validate_oracle (env : Env) (t : List Char) : Option (List Char) :=
  if t.length < 30 then none else env.apiUser t

/-- `SecureTokenManager._load_secure_token` (lines 297-327): read the
config file; any of missing file, unparseable JSON, version mismatch,
missing ciphertext or failed decryption yields `None` and leaves the file
as it is.  On a truthy decrypted token the `last_used` stamp is written
back; that write happens inside the same `try`, so when it fails the
`except` returns `None` and the interrupted write leaves an unparseable
file. -/
def load_secure_token (env : Env) (st : St) : Option (List Char) × St :=
  match st.configFile with
  | .absent => (none, st)
  | .malformed => (none, st)
  | .record v ct name _ =>
      if v = some CONFIG_VERSION then
        match ct with
        | none => (none, st)
        | some c =>
            match decrypt_token env.cryptoAvailable env.key c with
            | none => (none, st)
            | some t =>
                if t ≠ [] then
                  if env.writeOk then
                    (some t, { st with configFile := .record v ct name env.now })
                  else (none, { st with configFile := .malformed })
                else (some t, st)
      else (none, st)

/-- `SecureTokenManager._remove_secure_token` (lines 329-337). -/
def remove_secure_token (st : St) : St :=
  { st with configFile := .absent }

/-- `SecureTokenManager.store_token_securely` (lines 151-192): validate
first and return `False` with the state untouched when validation fails;
then encrypt and write the record (a failing write leaves a file that no
longer parses). -/
def store_token_securely (env : Env) (st : St) (t : List Char) : Bool × St :=
  match validate_oracle env t with
  | none => (false, st)
  | some name =>
      if env.writeOk then
        let rec0 : JsonFile :=
          .record (some CONFIG_VERSION)
            (some (encrypt_token env.cryptoAvailable env.key t)) name env.now
        (true, { st with configFile := rec0 })
      else (false, { st with configFile := .malformed })

/-- Lines 126-139 of `get_secure_token`: load the stored token; when it is
truthy, validate it remotely, returning it on success and deleting the
stored record on failure. -/
def tryStoredToken (env : Env) (st : St) : Option (List Char) × St :=
  match load_secure_token env st with
  | (some t, st1) =>
      if t ≠ [] then
        match validate_oracle env t with
        | some _ => (some t, st1)
        | none => (none, remove_secure_token st1)
      else (none, st1)
  | (none, st1) => (none, st1)

/-- The token-selection loop of `_handle_migration` (lines 462-467): the
first legacy token that validates. -/
def selectToken (env : Env) : List (String × List Char) → Option (List Char)
  | [] => none
  | (_, t) :: rest =>
      if (validate_oracle env t).isSome then some t else selectToken env rest

/-- `SecureTokenManager._cleanup_legacy_tokens` (lines 495-537): rewrite
each listed shell file with `cleanupLines`; a file that no longer exists is
skipped (the per-file `except` branch).  Returns the names of the cleaned
files (the source reports basenames) and the new state. -/
def cleanup_legacy_tokens (st : St) : List (String × List Char) → List String × St
  | [] => ([], st)
  | (name, _) :: rest =>
      if st.shellFiles.any (fun f => f.1 = name) then
        let fs1 := st.shellFiles.map
          (fun f => if f.1 = name then (f.1, cleanupLines f.2) else f)
        let st1 : St := { st with shellFiles := fs1 }
        let r := cleanup_legacy_tokens st1 rest
        (name :: r.1, r.2)
      else cleanup_legacy_tokens st rest

/-- Results of `_setup_new_token`: a validated stored token, the
`ValueError` raised when the user declines help, or the state of still
sitting in the input loop after the scripted inputs ran out (the Python
loop blocks for more input; it never returns without a token). -/
inductive SetupResult
  | ok (t : List Char)
  | declined
  | blocked
deriving DecidableEq

/-- The `while True` input loop of `_setup_new_token` (lines 581-601):
reject short inputs, reject inputs that fail validation, retry when the
store fails, return the first input that validates and stores. -/
def setupLoop (env : Env) (st : St) : List (List Char) → SetupResult × St
  | [] => (.blocked, st)
  | t :: rest =>
      if t.length < 30 then setupLoop env st rest
      else
        match validate_oracle env t with
        | none => setupLoop env st rest
        | some _ =>
            match store_token_securely env st t with
            | (true, st1) => (.ok t, st1)
            | (false, st1) => setupLoop env st1 rest

/-- `SecureTokenManager._setup_new_token` (lines 539-601): raise
(`declined`) if the user refuses help, otherwise run the input loop. -/
def setup_new_token (env : Env) (st : St) : SetupResult × St :=
  if env.setupChoice then setupLoop env st env.setupInputs
  else (.declined, st)

/-- Results of `_handle_migration`: a token, `cancelled` (user declined the
migration, `None` in the source), or the propagated setup outcomes. -/
inductive MigResult
  | ok (t : List Char)
  | cancelled
  | declined
  | blocked
deriving DecidableEq

/-- `_setup_new_token` as called from inside `_handle_migration`'s `try`
block: a `ValueError` it raises is caught by the `except` at line 490,
which calls `_setup_new_token` once more (line 493); a `ValueError` from
that second call propagates. -/
def setupFromMigration (env : Env) (st : St) : MigResult × St :=
  match setup_new_token env st with
  | (.ok t, st1) => (.ok t, st1)
  | (.blocked, st1) => (.blocked, st1)
  | (.declined, st1) =>
      match setup_new_token env st1 with
      | (.ok t, st2) => (.ok t, st2)
      | (.blocked, st2) => (.blocked, st2)
      | (.declined, st2) => (.declined, st2)

/-- `SecureTokenManager._handle_migration` (lines 431-493): confirm, pick
the first validating legacy token (falling through to setup when none
validates), persist it, and only on successful persistence clean up the
shell files; a failed persist falls through to setup with the shell files
untouched. -/
def handle_migration (env : Env) (st : St) (legacy : List (String × List Char)) :
    MigResult × St :=
  if env.migrateChoice then
    match selectToken env legacy with
    | none => setupFromMigration env st
    | some t =>
        match store_token_securely env st t with
        | (true, st1) => (.ok t, (cleanup_legacy_tokens st1 legacy).2)
        | (false, st1) => setupFromMigration env st1
  else (.cancelled, st)

/-- Results of `get_secure_token` for the caller: a token, the propagated
`ValueError` of a declined setup (the spec's `CredentialUnavailable`), or
the blocked-input state. -/
inductive GetResult
  | ok (t : List Char)
  | credentialUnavailable
  | blocked
deriving DecidableEq

def liftSetup : SetupResult × St → GetResult × St
  | (.ok t, st) => (.ok t, st)
  | (.declined, st) => (.credentialUnavailable, st)
  | (.blocked, st) => (.blocked, st)

/-- `SecureTokenManager.get_secure_token` (lines 110-149): stored token
first, then migration of detected legacy tokens, then interactive setup. -/
def get_secure_token (env : Env) (st : St) : GetResult × St :=
  match tryStoredToken env st with
  | (some t, st1) => (.ok t, st1)
  | (none, st1) =>
      let legacy := detect_legacy_tokens st1.shellFiles
      if legacy.isEmpty then liftSetup (setup_new_token env st1)
      else
        match handle_migration env st1 legacy with
        | (.ok t, st2) =>
            if t ≠ [] then (.ok t, st2) else liftSetup (setup_new_token env st2)
        | (.cancelled, st2) => liftSetup (setup_new_token env st2)
        | (.declined, st2) => (.credentialUnavailable, st2)
        | (.blocked, st2) => (.blocked, st2)

/-- `SecureTokenManager.diagnose_token` (lines 844-916).  `dnsOk` and
`httpsOk` are the outcomes of tests 1 and 2; the token under test is the
argument when truthy, else the stored one; a missing or short token fails;
the pipe-segment inspection only prints and does not influence the result;
the final verdict is that of `_validate_token(test_token, max_retries=1)`. -/
def diagnose_token (env : Env) (st : St) (dnsOk httpsOk : Bool)
    (responses : Nat → ApiOutcome) (token : Option (List Char)) : Bool :=
  if !dnsOk then false
  else if !httpsOk then false
  else
    let t? := if pyTruthy token then token else (load_secure_token env st).1
    if !pyTruthy t? then false
    else
      let t := t?.getD []
      if t.length < 30 then false
      else (validate_token t 1 responses).1.isSome

/-! ## Theorems about the claims -/

/-- A 40-character token used as concrete input. -/
def tokenW : List Char := List.replicate 40 'A'

/-- A concrete identifier tuple. -/
def tupleA : IdTuple :=
  { machineId := "machine-a".toList, userId := "alice".toList,
    homePath := "/home/alice".toList }

/-- A second, different identifier tuple. -/
def tupleB : IdTuple :=
  { machineId := "machine-b".toList, userId := "bob".toList,
    homePath := "/home/bob".toList }

/-- C1: for every token of length at least 30 and every encryption key
(in particular every key derived from an identifier tuple), decrypting the
encryption of the token under the same key gives back exactly the token,
in strong-cipher mode and in fallback mode alike.  The byte-range
hypothesis says the characters are single-byte, which is how the model
renders `str.encode`/`bytes.decode`. -/
theorem c1_encrypt_decrypt_roundtrip (cryptoAvailable : Bool) (key : Nat)
    (t : List Char) (_hlen : 30 ≤ t.length) (hbyte : ∀ c ∈ t, c.toNat < 256) :
    decrypt_token cryptoAvailable key (encrypt_token cryptoAvailable key t) = some t := by
  cases cryptoAvailable with
  | true => simp [encrypt_token, decrypt_token, decodeBytes_encodeBytes]
  | false =>
      have hb : ∀ b ∈ encodeBytes t, b < 256 := by
        intro b hb
        simp only [encodeBytes, List.mem_map] at hb
        obtain ⟨c, hc, rfl⟩ := hb
        exact hbyte c hc
      simp [encrypt_token, decrypt_token, b64decode_b64encode _ hb, decodeBytes_encodeBytes]

/-- Witness for C1 at a concrete 40-character token and key, in fallback
mode (the mode whose round trip goes through the base64 model). -/
theorem c1_encrypt_decrypt_roundtrip_witness :
    30 ≤ tokenW.length ∧
      decrypt_token false 7 (encrypt_token false 7 tokenW) = some tokenW :=
  ⟨by decide, c1_encrypt_decrypt_roundtrip false 7 tokenW (by decide) (by decide)⟩

/-- C2 counterexample: the claim requires `decrypt(encrypt(t, k1), k2)`
with `k1 ≠ k2` to return null in fallback mode as well, but in fallback
mode `_encrypt_token`/`_decrypt_token` never consult the key (lines
275-278 and 289-291 are plain base64), so decryption under the other
derived key returns the original token. -/
theorem c2_wrong_key_counterexample :
    generate_encryption_key tupleA ≠ generate_encryption_key tupleB ∧
      decrypt_token false (generate_encryption_key tupleB)
        (encrypt_token false (generate_encryption_key tupleA) tokenW) = some tokenW := by
  constructor
  · decide
  · decide

/-- C2 amended: in strong-cipher mode, decrypting under a key different
from the encrypting key returns null (never a token, never an exception:
`Fernet.decrypt` raises `InvalidToken` inside the `try` of
`_decrypt_token`, which returns `None`).  In fallback mode the key is
unused and decryption returns the original token, as the counterexample
shows. -/
theorem c2_amended_wrong_key_fails (k1 k2 : Nat) (t : List Char) (h : k1 ≠ k2) :
    decrypt_token true k2 (encrypt_token true k1 t) = none := by
  simp [encrypt_token, decrypt_token, h]

/-- Witness for the amended C2 at concrete distinct keys. -/
theorem c2_amended_wrong_key_fails_witness :
    (3 : Nat) ≠ 5 ∧ decrypt_token true 5 (encrypt_token true 3 tokenW) = none :=
  ⟨by decide, c2_amended_wrong_key_fails 3 5 tokenW (by decide)⟩

/-- C10: when validation of a token fails, `store_token_securely` returns
`False` and the state — in particular the persisted credential file — is
exactly the input state: the validation happens before any write (lines
163-166 precede the `open` at line 179). -/
theorem c10_store_invalid_token_noop (env : Env) (st : St) (t : List Char)
    (h : validate_oracle env t = none) :
    store_token_securely env st t = (false, st) := by
  unfold store_token_securely
  rw [h]

/-- An environment whose remote validation rejects every token. -/
def rejectEnv : Env :=
  { cryptoAvailable := true, key := 0, apiUser := fun _ => none, writeOk := true,
    now := 0, migrateChoice := true, setupChoice := false, setupInputs := [] }

/-- An empty starting state: no config file, no shell files. -/
def emptySt : St := { configFile := .absent, shellFiles := [] }

/-- Witness for C10: a concrete environment whose remote validation
rejects every token. -/
theorem c10_store_invalid_token_noop_witness :
    validate_oracle rejectEnv tokenW = none ∧
      store_token_securely rejectEnv emptySt tokenW = (false, emptySt) :=
  ⟨by decide, c10_store_invalid_token_noop rejectEnv emptySt tokenW (by decide)⟩

/-- `_load_secure_token` never deletes the config file: starting from a
present file, the file after a load is never absent. -/
theorem load_configFile_ne_absent (env : Env) (st : St) (h : st.configFile ≠ .absent) :
    (load_secure_token env st).2.configFile ≠ .absent := by
  unfold load_secure_token
  repeat' split
  all_goals first | exact h | simp

/-- The ciphertext of `tokenW` under key 0 in strong-cipher mode. -/
def storedCt : Ciphertext := encrypt_token true 0 tokenW

/-- A config file whose record carries schema version "0.9". -/
def staleRecordSt : St :=
  { configFile := .record (some "0.9") (some storedCt) [] 0, shellFiles := [] }

/-- C3 counterexample: a persisted record whose version field mismatches is
a read failure (`_load_secure_token` returns `None`, line 306-309), yet a
full `get_secure_token` run leaves the corrupt record on disk — deletion
(line 139) only happens when a token was loaded and failed remote
validation, refuting "every read failure triggers deletion of the file". -/
theorem c3_read_failure_no_deletion_counterexample :
    (load_secure_token rejectEnv staleRecordSt).1 = none ∧
      (get_secure_token rejectEnv staleRecordSt).2.configFile = staleRecordSt.configFile ∧
      staleRecordSt.configFile ≠ .absent := by
  refine ⟨by decide, by decide, by decide⟩

/-- C3 amended: during the stored-token phase of `get_secure_token` the
config file is deleted exactly when the record decrypts to a truthy token
that then fails remote validation; every other read failure (missing or
mismatched fields, undecryptable ciphertext, unparseable JSON) returns no
token and leaves the file in place. -/
theorem c3_amended_deletion_iff (env : Env) (st : St) (h : st.configFile ≠ .absent) :
    (tryStoredToken env st).2.configFile = .absent ↔
      ∃ t, (load_secure_token env st).1 = some t ∧ t ≠ [] ∧
        validate_oracle env t = none := by
  unfold tryStoredToken
  rcases hl : load_secure_token env st with ⟨tok?, st1⟩
  have hne : st1.configFile ≠ .absent := by
    have h2 := load_configFile_ne_absent env st h
    rw [hl] at h2
    exact h2
  cases tok? with
  | none => simp [hne]
  | some t =>
      by_cases ht : t = []
      · subst ht
        simp [hne]
      · cases hv : validate_oracle env t with
        | some u => simp [ht, hv, hne]
        | none => simp [ht, hv, remove_secure_token]

/-- A config file holding a well-formed record for `tokenW`. -/
def validRecordSt : St :=
  { configFile := .record (some CONFIG_VERSION) (some storedCt) [] 0, shellFiles := [] }

/-- Witness for the amended C3: under an environment that rejects every
token remotely, a well-formed record decrypts, fails validation, and the
file is deleted; the iff holds at this input. -/
theorem c3_amended_deletion_iff_witness :
    validRecordSt.configFile ≠ JsonFile.absent ∧
      ((tryStoredToken rejectEnv validRecordSt).2.configFile = .absent ↔
        ∃ t, (load_secure_token rejectEnv validRecordSt).1 = some t ∧ t ≠ [] ∧
          validate_oracle rejectEnv t = none) :=
  ⟨by decide, c3_amended_deletion_iff rejectEnv validRecordSt (by decide)⟩

/-- `store_token_securely` touches only the config file. -/
theorem store_shellFiles_eq (env : Env) (st : St) (t : List Char) :
    (store_token_securely env st t).2.shellFiles = st.shellFiles := by
  unfold store_token_securely
  repeat' split
  all_goals rfl

/-- The setup input loop touches only the config file. -/
theorem setupLoop_shellFiles_eq (env : Env) :
    ∀ (inputs : List (List Char)) (st : St),
      (setupLoop env st inputs).2.shellFiles = st.shellFiles := by
  intro inputs
  induction inputs with
  | nil => intro st; rfl
  | cons t rest ih =>
      intro st
      unfold setupLoop
      split
      · exact ih st
      · cases hv : validate_oracle env t with
        | none => simp only [hv]; exact ih st
        | some name =>
            simp only [hv]
            split
            next st1 hs =>
              have h0 := store_shellFiles_eq env st t
              rw [hs] at h0
              exact h0
            next st1 hs =>
              have h0 := store_shellFiles_eq env st t
              rw [hs] at h0
              exact (ih st1).trans h0

/-- `_setup_new_token` touches only the config file. -/
theorem setup_shellFiles_eq (env : Env) (st : St) :
    (setup_new_token env st).2.shellFiles = st.shellFiles := by
  unfold setup_new_token
  split
  · exact setupLoop_shellFiles_eq env env.setupInputs st
  · rfl

/-- The setup chain inside `_handle_migration` touches only the config
file. -/
theorem setupFromMigration_shellFiles_eq (env : Env) (st : St) :
    (setupFromMigration env st).2.shellFiles = st.shellFiles := by
  unfold setupFromMigration
  split
  next t st1 h1 =>
    have e1 := setup_shellFiles_eq env st
    rw [h1] at e1
    exact e1
  next st1 h1 =>
    have e1 := setup_shellFiles_eq env st
    rw [h1] at e1
    exact e1
  next st1 h1 =>
    have e1 := setup_shellFiles_eq env st
    rw [h1] at e1
    split
    next t st2 h2 =>
      have e2 := setup_shellFiles_eq env st1
      rw [h2] at e2
      exact e2.trans e1
    next st2 h2 =>
      have e2 := setup_shellFiles_eq env st1
      rw [h2] at e2
      exact e2.trans e1
    next st2 h2 =>
      have e2 := setup_shellFiles_eq env st1
      rw [h2] at e2
      exact e2.trans e1

/-- C4: if persisting the selected legacy token fails, the migration flow
leaves every shell configuration file unchanged — `_cleanup_legacy_tokens`
runs only in the success branch of `store_token_securely` (lines 474-476),
and the fallback setup chain never touches shell files. -/
theorem c4_migration_persist_failure_frame (env : Env) (st : St)
    (legacy : List (String × List Char)) (t : List Char)
    (hsel : selectToken env legacy = some t)
    (hfail : (store_token_securely env st t).1 = false) :
    (handle_migration env st legacy).2.shellFiles = st.shellFiles := by
  unfold handle_migration
  split
  · split
    next hnone =>
      rw [hsel] at hnone
      cases hnone
    next t' hsome =>
      rw [hsel] at hsome
      injection hsome with ht'
      subst ht'
      split
      next st1 hs =>
        rw [hs] at hfail
        simp at hfail
      next st1 hs =>
        have e1 := store_shellFiles_eq env st t
        rw [hs] at e1
        exact (setupFromMigration_shellFiles_eq env st1).trans e1
  · rfl

/-- A shell file containing one legacy sentinel entry, used as concrete
migration input. -/
def legacyLines : List (List Char) :=
  ["# some comment".toList, sentinelLine, exportStart ++ tokenW,
    "alias ll=ls".toList]

/-- An environment that validates every long-enough token but cannot write
the config file, so persistence fails. -/
def noWriteEnv : Env :=
  { cryptoAvailable := true, key := 0, apiUser := fun _ => some "user".toList,
    writeOk := false, now := 0, migrateChoice := true, setupChoice := false,
    setupInputs := [] }

def migSt : St := { configFile := .absent, shellFiles := [(".zshrc", legacyLines)] }

/-- Witness for C4 at a concrete failing-persist migration. -/
theorem c4_migration_persist_failure_frame_witness :
    selectToken noWriteEnv [(".zshrc", tokenW)] = some tokenW ∧
      (store_token_securely noWriteEnv migSt tokenW).1 = false ∧
      (handle_migration noWriteEnv migSt [(".zshrc", tokenW)]).2.shellFiles =
        migSt.shellFiles :=
  ⟨by decide, by decide,
    c4_migration_persist_failure_frame noWriteEnv migSt [(".zshrc", tokenW)] tokenW
      (by decide) (by decide)⟩

/-- Modelled from the spec's words for comparison with the source's
`cleanupLines` (C5 is a refinement claim): "the rewrite removes exactly one
sentinel-comment-line-plus-next-line pair — a single removal per file, the
first occurrence only — and leaves every other line of the file
unchanged". -/
def cleanupLinesFirstOnlySpec : List (List Char) → List (List Char)
  | [] => []
  | [l] => [l]
  | l :: l2 :: rest =>
      if pyStrip l = sentinelLine ∧ exportStart.isPrefixOf (pyStrip l2) then rest
      else l :: cleanupLinesFirstOnlySpec (l2 :: rest)

/-- The export line for `tokenW`. -/
def exportLineW : List Char := exportStart ++ tokenW

/-- A shell file with two sentinel pairs. -/
def doubleSentinelFile : List (List Char) :=
  [sentinelLine, exportLineW, sentinelLine, exportLineW]

/-- C5 counterexample: on a file with two sentinel pairs the cleanup loop
(lines 513-525) removes both — the `continue` keeps scanning after a
removal — whereas the claim's first-occurrence-only removal would keep the
second pair. -/
theorem c5_single_removal_counterexample :
    cleanupLines doubleSentinelFile = [] ∧
      cleanupLinesFirstOnlySpec doubleSentinelFile = [sentinelLine, exportLineW] ∧
      cleanupLines doubleSentinelFile ≠ cleanupLinesFirstOnlySpec doubleSentinelFile := by
  refine ⟨by decide, by decide, by decide⟩

/-- Lines without the sentinel are passed through unchanged. -/
theorem cleanupLines_no_sentinel (ls : List (List Char)) :
    (∀ l ∈ ls, pyStrip l ≠ sentinelLine) → cleanupLines ls = ls := by
  induction ls with
  | nil => intro _; rfl
  | cons l rest ih =>
      intro h
      have hl : pyStrip l ≠ sentinelLine := h l (by simp)
      have hrest : ∀ x ∈ rest, pyStrip x ≠ sentinelLine :=
        fun x hx => h x (by simp [hx])
      cases rest with
      | nil => simp [cleanupLines, hl]
      | cons l2 rest2 => simp [cleanupLines, hl, ih hrest]

/-- C5 amended: the cleanup removes every sentinel pair; in particular,
for a file containing exactly one sentinel line, followed by the export
line, the rewrite removes exactly that pair and leaves every other line of
the file unchanged. -/
theorem c5_amended_single_pair_removed (pre post : List (List Char)) (s e : List Char)
    (hpre : ∀ l ∈ pre, pyStrip l ≠ sentinelLine)
    (hpost : ∀ l ∈ post, pyStrip l ≠ sentinelLine)
    (hs : pyStrip s = sentinelLine)
    (he : exportStart.isPrefixOf (pyStrip e) = true) :
    cleanupLines (pre ++ s :: e :: post) = pre ++ post := by
  induction pre with
  | nil =>
      simp only [List.nil_append]
      simp [cleanupLines, hs, he, cleanupLines_no_sentinel post hpost]
  | cons p pre' ih =>
      have hp : pyStrip p ≠ sentinelLine := hpre p (by simp)
      have hpre' : ∀ l ∈ pre', pyStrip l ≠ sentinelLine :=
        fun l hl => hpre l (by simp [hl])
      rcases hsplit : pre' ++ s :: e :: post with _ | ⟨q, qs⟩
      · exact absurd hsplit (by simp)
      · have step : cleanupLines (p :: q :: qs) = p :: cleanupLines (q :: qs) := by
          simp [cleanupLines, hp]
        calc cleanupLines ((p :: pre') ++ s :: e :: post)
            = cleanupLines (p :: q :: qs) := by rw [List.cons_append, hsplit]
          _ = p :: cleanupLines (q :: qs) := step
          _ = p :: cleanupLines (pre' ++ s :: e :: post) := by rw [← hsplit]
          _ = p :: (pre' ++ post) := by rw [ih hpre']
          _ = (p :: pre') ++ post := by simp

/-- Witness for the amended C5 at a concrete single-sentinel file. -/
theorem c5_amended_single_pair_removed_witness :
    cleanupLines (["# keep me".toList] ++ sentinelLine :: exportLineW ::
        ["alias ll=ls".toList]) = ["# keep me".toList] ++ ["alias ll=ls".toList] :=
  c5_amended_single_pair_removed ["# keep me".toList] ["alias ll=ls".toList]
    sentinelLine exportLineW (by decide) (by decide) (by decide) (by decide)

/-- A response oracle is all-transient below `m` when every attempt below
`m` raises an exception classified as transient. -/
def allTransient (responses : Nat → ApiOutcome) (m : Nat) : Prop :=
  ∀ i, i < m → ∃ msg, responses i = .exn msg ∧ isTransientMsg msg = true

/-- Behaviour of the retry loop when every attempt fails transiently:
it visits all remaining attempts, sleeping `(attempt + 1) * 2` seconds
after each non-final one, and ends with `none`. -/
theorem validateLoop_all_transient (responses : Nat → ApiOutcome) (m : Nat)
    (htr : allTransient responses m) :
    ∀ remaining attempt, attempt + remaining = m → 0 < remaining →
      validateLoop responses m attempt remaining =
        (none, m, (List.range (remaining - 1)).map (fun i => (attempt + 1 + i) * 2)) := by
  intro remaining
  induction remaining with
  | zero => intro attempt _ hpos; exact absurd hpos (by simp)
  | succ r ih =>
      intro attempt hsum _
      obtain ⟨msg, hmsg, htrans⟩ := htr attempt (by omega)
      unfold validateLoop
      rw [hmsg]
      simp only [htrans, if_true]
      cases r with
      | zero =>
          have hlt : ¬ (attempt < m - 1) := by omega
          simp only [if_neg hlt]
          have : attempt + 1 = m := by omega
          simp [this]
      | succ r' =>
          have hlt : attempt < m - 1 := by omega
          simp only [if_pos hlt]
          rw [ih (attempt + 1) (by omega) (by omega)]
          simp only [Nat.add_sub_cancel, Prod.mk.injEq, true_and]
          rw [List.range_succ_eq_map, List.map_cons, List.map_map]
          congr 1
          refine List.map_congr_left ?_
          intro i _
          simp only [Function.comp_apply]
          omega

/-- C6: when a token of length at least 30 is validated and every attempt
fails with a transient-classified error, `_validate_token` performs exactly
`max_retries` attempts, sleeps `attempt_index * 2` seconds between
consecutive attempts (2s after the first attempt, 4s after the second, …),
and finally returns `None` instead of raising. -/
theorem c6_transient_retry_budget (t : List Char) (m : Nat)
    (responses : Nat → ApiOutcome) (hlen : 30 ≤ t.length) (hm : 0 < m)
    (htr : allTransient responses m) :
    validate_token t m responses =
      (none, m, (List.range (m - 1)).map (fun i => (i + 1) * 2)) := by
  unfold validate_token
  rw [if_neg (by omega)]
  rw [validateLoop_all_transient responses m htr m 0 (by omega) hm]
  simp only [Prod.mk.injEq, true_and]
  refine List.map_congr_left ?_
  intro i _
  omega

/-- Witness for C6: a 30-character token, three retries, every attempt a
timeout. -/
theorem c6_transient_retry_budget_witness :
    30 ≤ (List.replicate 30 'B').length ∧ 0 < 3 ∧
      validate_token (List.replicate 30 'B') 3 (fun _ => .exn "timeout".toList) =
        (none, 3, (List.range 2).map (fun i => (i + 1) * 2)) :=
  ⟨by decide, by decide,
    c6_transient_retry_budget (List.replicate 30 'B') 3 (fun _ => .exn "timeout".toList)
      (by decide) (by decide) (fun i _ => ⟨"timeout".toList, rfl, by decide⟩)⟩

theorem splitFirstEq_append (name rest : List Char) (hname : ('=' : Char) ∉ name) :
    splitFirstEq (name ++ '=' :: rest) = some (name, rest) := by
  induction name with
  | nil => simp [splitFirstEq]
  | cons c cs ih =>
      have hc : ¬ (c = '=') := fun h => hname (by simp [h])
      have hcs : ('=' : Char) ∉ cs := fun h => hname (by simp [h])
      simp [splitFirstEq, hc, ih hcs]

theorem dropWhile_eq_self_of_head (p : Char → Bool) (l : List Char)
    (h : ∀ c, l.head? = some c → p c = false) : l.dropWhile p = l := by
  cases l with
  | nil => rfl
  | cons c cs => simp [List.dropWhile_cons, h c rfl]

theorem pyStrip_eq_self (l : List Char)
    (h1 : ∀ c, l.head? = some c → isPySpace c = false)
    (h2 : ∀ c, l.getLast? = some c → isPySpace c = false) : pyStrip l = l := by
  unfold pyStrip
  rw [dropWhile_eq_self_of_head _ _ h1]
  rw [dropWhile_eq_self_of_head _ _ (fun c hc => h2 c (by rwa [List.head?_reverse] at hc))]
  exact List.reverse_reverse l

/-- Extraction on a quoted value: one layer of matching quotes is removed
and the strict 30-character guard is applied to the inner value. -/
theorem extract_token_quoted (name value : List Char) (q : Char)
    (hq : q = dquoteChar ∨ q = squoteChar) (hname : ('=' : Char) ∉ name) :
    extract_token_from_line (name ++ '=' :: q :: (value ++ [q])) =
      if value ≠ [] ∧ value.length > 30 then some value else none := by
  have hqs : isPySpace q = false := by rcases hq with rfl | rfl <;> decide
  have hstrip : pyStrip (q :: (value ++ [q])) = q :: (value ++ [q]) := by
    refine pyStrip_eq_self _ (fun c hc => ?_) (fun c hc => ?_)
    · simp only [List.head?_cons, Option.some.injEq] at hc
      rwa [← hc]
    · rw [← List.cons_append, List.getLast?_concat] at hc
      simp only [Option.some.injEq] at hc
      rwa [← hc]
  have hlast : (q :: (value ++ [q])).getLast? = some q := by
    rw [← List.cons_append, List.getLast?_concat]
  unfold extract_token_from_line
  rw [splitFirstEq_append name _ hname]
  simp only [hstrip, List.head?_cons, hlast]
  rcases hq with rfl | rfl
  · have htok : ((dquoteChar :: (value ++ [dquoteChar])).drop 1).dropLast = value := by
      simp [List.dropLast_concat]
    have hc1 : some dquoteChar = some dquoteChar ∧ some dquoteChar = some dquoteChar :=
      ⟨rfl, rfl⟩
    rw [if_pos hc1, htok]
  · have htok : ((squoteChar :: (value ++ [squoteChar])).drop 1).dropLast = value := by
      simp [List.dropLast_concat]
    have hne : ¬ (squoteChar = dquoteChar) := by decide
    have hc1 : ¬ (some squoteChar = some dquoteChar ∧ some squoteChar = some dquoteChar) :=
      fun hcon => hne (Option.some.inj hcon.1)
    have hc2 : some squoteChar = some squoteChar ∧ some squoteChar = some squoteChar :=
      ⟨rfl, rfl⟩
    rw [if_neg hc1, if_pos hc2, htok]

/-- Extraction on an unquoted value that is not itself quote-wrapped. -/
theorem extract_token_unquoted (name value : List Char) (hname : ('=' : Char) ∉ name)
    (hstrip : pyStrip value = value)
    (hd : ¬(value.head? = some dquoteChar ∧ value.getLast? = some dquoteChar))
    (hs : ¬(value.head? = some squoteChar ∧ value.getLast? = some squoteChar)) :
    extract_token_from_line (name ++ '=' :: value) =
      if value ≠ [] ∧ value.length > 30 then some value else none := by
  unfold extract_token_from_line
  rw [splitFirstEq_append name _ hname]
  simp only [hstrip, if_neg hd, if_neg hs]

/-- C7 counterexample: a sentinel-pattern export line whose double-quoted
token has exactly 30 characters — "at least 30" by the claim — yields no
match, because line 423 requires `len(token) > 30` strictly. -/
theorem c7_exact_30_counterexample :
    (List.replicate 30 'C').length = 30 ∧
      extract_token_from_line
        (exportStart ++ dquoteChar :: (List.replicate 30 'C' ++ [dquoteChar])) = none := by
  refine ⟨by decide, by decide⟩

/-- C7 amended: for an export line whose value is single- or double-quoted
or unquoted, extraction yields the value with quotes stripped exactly when
the value is strictly longer than 30 characters; values of 30 or fewer
characters yield no match. -/
theorem c7_amended_extraction (name value : List Char) (q : Char)
    (hq : q = dquoteChar ∨ q = squoteChar) (hname : ('=' : Char) ∉ name) :
    (30 < value.length →
      extract_token_from_line (name ++ '=' :: q :: (value ++ [q])) = some value) ∧
    (value.length ≤ 30 →
      extract_token_from_line (name ++ '=' :: q :: (value ++ [q])) = none) ∧
    (pyStrip value = value →
      ¬(value.head? = some dquoteChar ∧ value.getLast? = some dquoteChar) →
      ¬(value.head? = some squoteChar ∧ value.getLast? = some squoteChar) →
      30 < value.length →
      extract_token_from_line (name ++ '=' :: value) = some value) := by
  refine ⟨?_, ?_, ?_⟩
  · intro hlen
    rw [extract_token_quoted name value q hq hname]
    rw [if_pos ⟨by rintro rfl; simp at hlen, by omega⟩]
  · intro hlen
    rw [extract_token_quoted name value q hq hname]
    rw [if_neg (fun hcon => by omega)]
  · intro hstrip hd hs hlen
    rw [extract_token_unquoted name value hname hstrip hd hs]
    rw [if_pos ⟨by rintro rfl; simp at hlen, by omega⟩]

/-- Witness for the amended C7 on the legacy export line with a
31-character double-quoted token. -/
theorem c7_amended_extraction_witness :
    30 < (List.replicate 31 'D').length ∧
      extract_token_from_line ("export QUIP_API_TOKEN".toList ++ '=' ::
          dquoteChar :: (List.replicate 31 'D' ++ [dquoteChar])) =
        some (List.replicate 31 'D') :=
  ⟨by decide,
    (c7_amended_extraction "export QUIP_API_TOKEN".toList (List.replicate 31 'D')
      dquoteChar (Or.inl rfl) (by decide)).1 (by decide)⟩

/-- The setup input loop never raises the declined `ValueError`: it either
returns a stored token or keeps asking. -/
theorem setupLoop_ne_declined (env : Env) :
    ∀ (inputs : List (List Char)) (st : St),
      (setupLoop env st inputs).1 ≠ SetupResult.declined := by
  intro inputs
  induction inputs with
  | nil => intro st h; cases h
  | cons t rest ih =>
      intro st
      unfold setupLoop
      split
      · exact ih st
      · split
        · exact ih st
        · split
          next st1 _ => intro h; cases h
          next st1 _ => exact ih st1

/-- `_setup_new_token` raises exactly when the user declines the setup
prompt. -/
theorem setup_declined_iff (env : Env) (st : St) :
    (setup_new_token env st).1 = SetupResult.declined ↔ env.setupChoice = false := by
  unfold setup_new_token
  cases h : env.setupChoice
  · simp [h]
  · simp only [h, if_true]
    constructor
    · intro hc
      exact absurd hc (setupLoop_ne_declined env env.setupInputs st)
    · intro hc
      cases hc

/-- The setup chain inside `_handle_migration` propagates `declined` only
when the user declines the setup prompt. -/
theorem setupFromMigration_declined (env : Env) (st : St)
    (h : (setupFromMigration env st).1 = MigResult.declined) :
    env.setupChoice = false := by
  unfold setupFromMigration at h
  split at h
  next t st1 h1 => cases h
  next st1 h1 => cases h
  next st1 h1 =>
    split at h
    next t st2 h2 => cases h
    next st2 h2 => cases h
    next st2 h2 =>
      refine (setup_declined_iff env st1).1 ?_
      rw [h2]

/-- `_handle_migration` propagates the declined `ValueError` only when the
user declines the setup prompt. -/
theorem handle_migration_declined (env : Env) (st : St)
    (legacy : List (String × List Char))
    (h : (handle_migration env st legacy).1 = MigResult.declined) :
    env.setupChoice = false := by
  unfold handle_migration at h
  split at h
  · split at h
    next => exact setupFromMigration_declined env st h
    next t hsome =>
      split at h
      next st1 hs => cases h
      next st1 hs => exact setupFromMigration_declined env st1 h
  · cases h

/-- C8: the `ValueError` of a declined setup (`CredentialUnavailable`) is
the only hard failure `get_secure_token` propagates — whenever the call
ends in that failure, the user declined the setup prompt — and the
end-to-end scenario holds: with no stored credential, no legacy shell
entries and the user declining setup, `get_secure_token` fails with it. -/
theorem c8_credential_unavailable_only_on_decline :
    (∀ (env : Env) (st : St),
        (get_secure_token env st).1 = GetResult.credentialUnavailable →
          env.setupChoice = false) ∧
      (get_secure_token rejectEnv emptySt).1 = GetResult.credentialUnavailable := by
  constructor
  · intro env st h
    unfold get_secure_token at h
    split at h
    next t st1 _ => cases h
    next st1 _ =>
      by_cases hleg : (detect_legacy_tokens st1.shellFiles).isEmpty
      · rw [if_pos hleg] at h
        rcases h2 : setup_new_token env st1 with ⟨r, st2⟩
        rw [h2] at h
        cases r with
        | ok t => cases h
        | blocked => cases h
        | declined => exact (setup_declined_iff env st1).1 (by rw [h2])
      · rw [if_neg hleg] at h
        split at h
        next t st2 hmig =>
            split at h
            · cases h
            · rcases h2 : setup_new_token env st2 with ⟨r, st3⟩
              rw [h2] at h
              cases r with
              | ok t2 => cases h
              | blocked => cases h
              | declined => exact (setup_declined_iff env st2).1 (by rw [h2])
        next st2 hmig =>
            rcases h2 : setup_new_token env st2 with ⟨r, st3⟩
            rw [h2] at h
            cases r with
            | ok t2 => cases h
            | blocked => cases h
            | declined => exact (setup_declined_iff env st2).1 (by rw [h2])
        next st2 hmig =>
            exact handle_migration_declined env st1 _ (by rw [hmig])
        next st2 hmig => cases h
  · decide

/-- Witness applying the universally quantified half of C8 at the concrete
declining environment. -/
theorem c8_credential_unavailable_only_on_decline_witness :
    rejectEnv.setupChoice = false :=
  c8_credential_unavailable_only_on_decline.1 rejectEnv emptySt (by decide)

theorem pyTruthy_iff (o : Option (List Char)) :
    pyTruthy o = true ↔ ∃ t, o = some t ∧ t ≠ [] := by
  cases o with
  | none => simp [pyTruthy]
  | some l =>
      cases l with
      | nil => simp [pyTruthy]
      | cons c cs => simp [pyTruthy]

/-- A 31-character token without pipe separators. -/
def c9Token : List Char := List.replicate 31 'E'

/-- C9 counterexample: a token that fails the segment-count inspection
(no `|` separators, so not three parts) still makes `diagnose_token`
return `True` when the remaining checks and the final validation succeed —
the segment check at lines 893-900 only prints a warning and never
short-circuits. -/
theorem c9_segment_check_counterexample :
    diagnose_token rejectEnv emptySt true true
        (fun _ => .response true "u".toList) (some c9Token) = true ∧
      ¬ ('|' ∈ c9Token) := by
  refine ⟨by decide, by decide⟩

/-- C9 amended: `diagnose_token` returns `True` exactly when DNS
resolution and HTTPS reachability succeed, a non-empty token is available
(argument or stored), its length is at least 30, and the full validation
of step 4 succeeds; the segment-count inspection does not influence the
result. -/
theorem c9_amended_diagnose_iff (env : Env) (st : St) (dnsOk httpsOk : Bool)
    (responses : Nat → ApiOutcome) (token : Option (List Char)) :
    diagnose_token env st dnsOk httpsOk responses token = true ↔
      (dnsOk = true ∧ httpsOk = true ∧
        ∃ t, (if pyTruthy token then token else (load_secure_token env st).1) = some t ∧
          t ≠ [] ∧ 30 ≤ t.length ∧ (validate_token t 1 responses).1.isSome = true) := by
  unfold diagnose_token
  cases dnsOk with
  | false => simp
  | true =>
      cases httpsOk with
      | false => simp
      | true =>
          simp only [Bool.not_true, Bool.false_eq_true, if_false, true_and]
          generalize (if pyTruthy token then token else (load_secure_token env st).1) = tsel
          cases tsel with
          | none => simp [pyTruthy]
          | some l =>
              cases l with
              | nil => simp [pyTruthy]
              | cons c cs =>
                  simp only [pyTruthy, Bool.not_true, Bool.false_eq_true, if_false,
                    Option.getD_some, Option.some.injEq]
                  by_cases hlen : (c :: cs).length < 30
                  · rw [if_pos hlen]
                    constructor
                    · intro h
                      cases h
                    · rintro ⟨t, rfl, _, hge, _⟩
                      omega
                  · rw [if_neg hlen]
                    constructor
                    · intro h
                      exact ⟨c :: cs, rfl, by simp, by omega, h⟩
                    · rintro ⟨t, rfl, _, _, hv⟩
                      exact hv

end Runbooker
